import Mathlib

/-!
# Verification of the admission-control core and forwarding pipeline of the
# api-rate-limiter reverse proxy (src/app.py)

The embedding models timestamps as integers (`Int`), per-client state as
association lists keyed by the client identifier string, and the request
handler `proxy_request` as a pure function of the current time, the shared
state, the inbound request and a backend oracle.  Each Lean definition below
is translated from the correspondingly named Python function in `src/app.py`.
-/

namespace RateLimiter

/-- Association-list lookup: first entry whose key equals `ip` (Python dict
lookup; keys are unique in any state a run of the program can produce). -/
def findKey {β : Type} : List (String × β) → String → Option β
  | [], _ => none
  | (k, v) :: rest, ip => if k = ip then some v else findKey rest ip

/-- Association-list update: replace the binding if the key is present,
otherwise append a new binding (Python dict assignment `d[k] = v`). -/
def setKey {β : Type} : List (String × β) → String → β → List (String × β)
  | [], ip, v => [(ip, v)]
  | (k, w) :: rest, ip, v =>
      if k = ip then (k, v) :: rest else (k, w) :: setKey rest ip v

/-- Association-list deletion (Python `del d[k]`): drop every binding of the
key; on unique-key states this is exactly deletion of the one binding. -/
def delKey {β : Type} (m : List (String × β)) (ip : String) : List (String × β) :=
  m.filter (fun p => !(decide (p.1 = ip)))

/-- Immutable configuration (environment variables read at startup):
`BACKEND_URL`, `REQUESTS_PER_HOUR`, `DDOS_REQUESTS_PER_MINUTE`,
`BLOCK_DURATION_MINUTES`. -/
structure Config where
  backendUrl : String
  requestsPerHour : Nat
  ddosThreshold : Nat
  blockDurationMinutes : Int
deriving DecidableEq

/-- The shared mutable state: `ip_requests` (client → ordered timestamp log)
and `blocked_ips` (client → unblock time). -/
structure RateState where
  ipRequests : List (String × List Int)
  blockedIps : List (String × Int)
deriving DecidableEq

/-- `ip_requests[ip]` under `defaultdict(deque)`: absent key reads as the
empty log. -/
def lookupLog (s : RateState) (ip : String) : List Int :=
  (findKey s.ipRequests ip).getD []

/-- The prefix trim in `cleanup_old_data`:
`while ip_requests[ip] and ip_requests[ip][0] < cutoff: popleft()`. -/
def pruneOld (cutoff : Int) (l : List Int) : List Int :=
  l.dropWhile (fun t => decide (t < cutoff))

/-- `cleanup_old_data()` at instant `now`: trim each client's log below
`now - 3600` from the front, delete clients whose log became empty, and
delete every block entry with `blocked_ips[ip] < now`. -/
def cleanup_old_data (now : Int) (s : RateState) : RateState :=
  { ipRequests :=
      (s.ipRequests.map (fun p => (p.1, pruneOld (now - 3600) p.2))).filter
        (fun p => !p.2.isEmpty),
    blockedIps := s.blockedIps.filter (fun p => !(decide (p.2 < now))) }

/-- `is_ip_blocked(ip)`: `ip in blocked_ips and blocked_ips[ip] > now`. -/
def is_ip_blocked (s : RateState) (ip : String) (now : Int) : Bool :=
  match findKey s.blockedIps ip with
  | some expiry => decide (now < expiry)
  | none => false

/-- The triple returned by `check_rate_limit`: `(allowed, hour_count, reason)`. -/
structure RLResult where
  allowed : Bool
  requestCount : Nat
  reason : String
deriving DecidableEq

/-- Count of entries of `pre ++ [t]` strictly inside the trailing minute of
`t` — the `minute_requests` expression of `check_rate_limit` evaluated on a
log `pre` to which `t` was just appended. -/
def minuteCnt (pre : List Int) (t : Int) : Nat :=
  ((pre ++ [t]).filter (fun u => decide (t - 60 < u))).length

/-- `check_rate_limit(ip)` at instant `now`: append `now` to the client's
log, let `hour_count` be the full log length and `minute_requests` the count
of entries newer than `now - 60`; if `minute_requests >= ddosThreshold`
install a block until `now + blockDurationMinutes * 60` and deny with
"DDoS detected"; else if `hour_count > requestsPerHour` deny with
"Rate limit exceeded"; else allow. -/
def check_rate_limit (cfg : Config) (now : Int) (s : RateState) (ip : String) :
    RLResult × RateState :=
  let newLog := lookupLog s ip ++ [now]
  let s1 : RateState := { s with ipRequests := setKey s.ipRequests ip newLog }
  let hourCount := newLog.length
  let minuteRequests := (newLog.filter (fun u => decide (now - 60 < u))).length
  if cfg.ddosThreshold ≤ minuteRequests then
    let blockUntil := now + cfg.blockDurationMinutes * 60
    (⟨false, hourCount, "DDoS detected"⟩,
     { s1 with blockedIps := setKey s1.blockedIps ip blockUntil })
  else if cfg.requestsPerHour < hourCount then
    (⟨false, hourCount, "Rate limit exceeded"⟩, s1)
  else
    (⟨true, hourCount, "OK"⟩, s1)

/-- The JSON body of `/unblock/<ip>`: a message and a success flag. -/
structure UnblockResponse where
  message : String
  success : Bool
deriving DecidableEq

/-- `unblock_ip(ip)`: if the client is in `blocked_ips`, delete the entry and
report success; otherwise report a no-op. -/
def unblock_ip (s : RateState) (ip : String) : UnblockResponse × RateState :=
  if (findKey s.blockedIps ip).isSome then
    (⟨"IP " ++ ip ++ " has been unblocked", true⟩,
     { s with blockedIps := delKey s.blockedIps ip })
  else
    (⟨"IP " ++ ip ++ " was not blocked", false⟩, s)

/-- HTTP methods routed to `proxy_request`. -/
inductive Method
  | GET | POST | PUT | DELETE | PATCH | OPTIONS
deriving DecidableEq

/-- One uploaded file of a multipart request: `(filename, stream, content_type)`
with the stream's bytes made explicit. -/
structure FilePart where
  filename : String
  contentType : String
  content : List Nat
deriving DecidableEq

/-- The inbound request as `proxy_request` observes it through Flask:
method, path (no query string), headers, query arguments, raw body bytes
(`request.get_data()`), the multipart/JSON content-type tests, the parsed
JSON payload when present, and the multipart files and form fields. -/
structure HttpRequest where
  method : Method
  path : String
  headers : List (String × String)
  args : List (String × String)
  body : List Nat
  isMultipart : Bool
  isJson : Bool
  jsonValue : Option String
  files : List (String × FilePart)
  form : List (String × String)
deriving DecidableEq

/-- The outbound call handed to the `requests` library: method, target URL,
headers, query parameters (`params=`), raw body (`data=` as bytes), JSON
payload (`json=`), multipart files (`files=`) and form fields (`data=` as a
dict in the multipart branch). -/
structure OutboundRequest where
  method : Method
  url : String
  headers : List (String × String)
  params : List (String × String)
  data : Option (List Nat)
  jsonBody : Option String
  files : List (String × FilePart)
  form : List (String × String)
deriving DecidableEq

/-- Character lowercasing as used by Python `str.lower()` on ASCII header
names. -/
def lowerStr (s : String) : String :=
  String.mk (s.data.map Char.toLower)

/-- `BACKEND_URL.rstrip(sep)` for the slash character. -/
def stripTrailingSlash (s : String) : String :=
  String.mk ((s.data.reverse.dropWhile (fun c => c = '/')).reverse)

/-- The outbound target `f"{BACKEND_URL.rstrip(sep)}/{path}"`. -/
def backendTarget (cfg : Config) (path : String) : String :=
  stripTrailingSlash cfg.backendUrl ++ "/" ++ path

/-- The inbound-header copy of `proxy_request`: drop `Host` and
`Content-Length`, case-insensitively. -/
def filterReqHeaders (hs : List (String × String)) : List (String × String) :=
  hs.filter (fun p =>
    !(decide (lowerStr p.1 = "host") || decide (lowerStr p.1 = "content-length")))

/-- The outbound call built by the method dispatch of `proxy_request`
(lines 242-266 of src/app.py): GET forwards query parameters without a body;
multipart POST forwards files and form fields with the `Content-Type` header
additionally dropped; JSON POST forwards the re-serialized JSON payload;
any other POST forwards the raw body bytes; every other method forwards the
raw body bytes together with the query parameters. -/
def buildOutbound (cfg : Config) (req : HttpRequest) : OutboundRequest :=
  let url := backendTarget cfg req.path
  let headers := filterReqHeaders req.headers
  match req.method with
  | .GET => ⟨.GET, url, headers, req.args, none, none, [], []⟩
  | .POST =>
      if req.isMultipart then
        ⟨.POST, url,
         headers.filter (fun p => !(decide (lowerStr p.1 = "content-type"))),
         [], none, none, req.files, req.form⟩
      else if req.isJson then
        ⟨.POST, url, headers, [], none, req.jsonValue, [], []⟩
      else
        ⟨.POST, url, headers, [], some req.body, none, [], []⟩
  | m => ⟨m, url, headers, req.args, some req.body, none, [], []⟩

/-- The exceptions `proxy_request` catches around the backend call:
`requests.exceptions.Timeout`, `requests.exceptions.ConnectionError`, and
any other `Exception` with its message. -/
inductive ForwardError
  | timeoutErr
  | connErr
  | otherErr (msg : String)
deriving DecidableEq

/-- The backend's reply: status code, headers and body bytes. -/
structure BackendResponse where
  statusCode : Nat
  headers : List (String × String)
  content : List Nat
deriving DecidableEq

/-- The client-facing result of `proxy_request`, one constructor per shape of
response the handler can produce. -/
inductive ProxyResult
  | blockedResp (remainingMinutes : Int) (unblockTime : Int)
  | ddosResp (blockDurationMinutes : Int)
  | rateLimitedResp (currentCount : Nat) (limit : Nat)
  | successResp (statusCode : Nat) (headers : List (String × String))
      (content : List Nat)
  | timeoutResp
  | connErrorResp
  | proxyErrorResp (details : String)
deriving DecidableEq

/-- The HTTP status code attached to each `ProxyResult` by `proxy_request`. -/
def ProxyResult.statusCode : ProxyResult → Nat
  | .blockedResp _ _ => 429
  | .ddosResp _ => 429
  | .rateLimitedResp _ _ => 429
  | .successResp st _ _ => st
  | .timeoutResp => 504
  | .connErrorResp => 502
  | .proxyErrorResp _ => 500

/-- The outcome label `log_request` records for each `ProxyResult`. -/
def ProxyResult.outcome : ProxyResult → String
  | .blockedResp _ _ => "BLOCKED"
  | .ddosResp _ => "DDOS_BLOCKED"
  | .rateLimitedResp _ _ => "RATE_LIMITED"
  | .successResp _ _ _ => "SUCCESS"
  | .timeoutResp => "TIMEOUT"
  | .connErrorResp => "CONNECTION_ERROR"
  | .proxyErrorResp _ => "ERROR"

/-- Needle-at-front test on character lists. -/
def frontMatch : List Char → List Char → Bool
  | [], _ => true
  | _ :: _, [] => false
  | a :: as, b :: bs => decide (a = b) && frontMatch as bs

/-- Substring test on character lists: the needle matches at some position. -/
def hasSubList (needle : List Char) : List Char → Bool
  | [] => needle.isEmpty
  | c :: rest => frontMatch needle (c :: rest) || hasSubList needle rest

/-- Python's `needle in hay` substring test. -/
def strContains (needle hay : String) : Bool :=
  hasSubList needle.data hay.data

/-- The response-header copy of `proxy_request`: drop the hop-by-hop denylist
`content-encoding`, `content-length`, `transfer-encoding`, `connection`,
case-insensitively. -/
def filterRespHeaders (hs : List (String × String)) : List (String × String) :=
  hs.filter (fun p =>
    !(decide (lowerStr p.1 = "content-encoding") ||
      decide (lowerStr p.1 = "content-length") ||
      decide (lowerStr p.1 = "transfer-encoding") ||
      decide (lowerStr p.1 = "connection")))

/-- The error-branch mapping of `proxy_request`: `Timeout` to 504,
`ConnectionError` to 502, any other exception to 500 with its message. -/
def errorResponse : ForwardError → ProxyResult
  | .timeoutErr => .timeoutResp
  | .connErr => .connErrorResp
  | .otherErr msg => .proxyErrorResp msg

/-- `proxy_request` at instant `now` for client `ip`, with the outbound
network modelled by the oracle `backend`: run `cleanup_old_data`; if the
client is blocked answer 429 with the remaining minutes and unblock time and
touch nothing else; otherwise run `check_rate_limit` and answer 429 on a
denial (the DDoS branch when the reason contains "DDoS"); otherwise hand
`buildOutbound` to the backend and relay its reply (status and body
verbatim, headers filtered) or map its failure through `errorResponse`. -/
def proxy_request (cfg : Config)
    (backend : OutboundRequest → Except ForwardError BackendResponse)
    (now : Int) (s : RateState) (req : HttpRequest) (ip : String) :
    ProxyResult × RateState :=
  let s0 := cleanup_old_data now s
  if is_ip_blocked s0 ip now then
    let expiry := (findKey s0.blockedIps ip).getD 0
    (.blockedResp ((expiry - now) / 60) expiry, s0)
  else
    let rc := check_rate_limit cfg now s0 ip
    if !rc.1.allowed then
      if strContains "DDoS" rc.1.reason then
        (.ddosResp cfg.blockDurationMinutes, rc.2)
      else
        (.rateLimitedResp rc.1.requestCount cfg.requestsPerHour, rc.2)
    else
      match backend (buildOutbound cfg req) with
      | .ok r => (.successResp r.statusCode (filterRespHeaders r.headers) r.content, rc.2)
      | .error .timeoutErr => (.timeoutResp, rc.2)
      | .error .connErr => (.connErrorResp, rc.2)
      | .error (.otherErr msg) => (.proxyErrorResp msg, rc.2)

/-- One admission step of a request run: the sweep followed by the rate
check, exactly the state-touching part of `proxy_request` for a client that
is not blocked. -/
def step (cfg : Config) (ip : String) (s : RateState) (now : Int) :
    RLResult × RateState :=
  check_rate_limit cfg now (cleanup_old_data now s) ip

/-- The admission results of a sequence of requests from one client at the
given instants, threading the state through `step`. -/
def runReqs (cfg : Config) (ip : String) : RateState → List Int → List RLResult
  | _, [] => []
  | s, t :: ts =>
      let r := step cfg ip s t
      r.1 :: runReqs cfg ip r.2 ts

/-- The log map holding exactly the history `pre` for client `ip` (absent
when the history is empty, as the sweep leaves no empty logs behind). -/
def mkLogMap (ip : String) (pre : List Int) : List (String × List Int) :=
  if pre.isEmpty then [] else [(ip, pre)]

/-- The admission verdict `check_rate_limit` hands back when the DDoS check
does not fire and the appended log has `c` entries, against hourly limit
`limit`. -/
def rlExpected (limit c : Nat) : RLResult :=
  if limit < c then ⟨false, c, "Rate limit exceeded"⟩ else ⟨true, c, "OK"⟩

/-- The per-step DDoS checks of a run all stay below the threshold: at each
request instant `t`, the trailing-minute count of the history so far plus
`t` itself is below `ddosThreshold`. -/
def noDdosRunB (cfg : Config) : List Int → List Int → Bool
  | _, [] => true
  | pre, t :: rest =>
      decide (minuteCnt pre t < cfg.ddosThreshold) && noDdosRunB cfg (pre ++ [t]) rest

/-! ## Helper lemmas on the association-list maps and the prune -/

theorem findKey_setKey {β : Type} (m : List (String × β)) (ip : String) (v : β) :
    findKey (setKey m ip v) ip = some v := by
  induction m with
  | nil => simp [setKey, findKey]
  | cons p rest ih =>
      obtain ⟨k, w⟩ := p
      by_cases hk : k = ip
      · simp [setKey, hk, findKey]
      · simp [setKey, hk, findKey, ih]

theorem findKey_delKey {β : Type} (m : List (String × β)) (ip : String) :
    findKey (delKey m ip) ip = none := by
  induction m with
  | nil => rfl
  | cons p rest ih =>
      obtain ⟨k, w⟩ := p
      by_cases hk : k = ip
      · simpa [delKey, List.filter_cons, hk] using ih
      · simpa [delKey, List.filter_cons, hk, findKey] using ih

theorem findKey_none_all {β : Type} (m : List (String × β)) (ip : String)
    (h : findKey m ip = none) : ∀ p ∈ m, p.1 ≠ ip := by
  induction m with
  | nil => intro p hp; simp at hp
  | cons q rest ih =>
      obtain ⟨k, w⟩ := q
      intro p hp
      by_cases hk : k = ip
      · simp [findKey, hk] at h
      · rcases List.mem_cons.1 hp with rfl | hmem
        · exact hk
        · exact ih (by simpa [findKey, hk] using h) p hmem

theorem delKey_of_absent {β : Type} (m : List (String × β)) (ip : String)
    (h : findKey m ip = none) : delKey m ip = m := by
  unfold delKey
  apply List.filter_eq_self.2
  intro p hp
  simpa using findKey_none_all m ip h p hp

theorem mem_of_findKey {β : Type} (m : List (String × β)) (ip : String) (v : β)
    (h : findKey m ip = some v) : (ip, v) ∈ m := by
  induction m with
  | nil => simp [findKey] at h
  | cons q rest ih =>
      obtain ⟨k, w⟩ := q
      by_cases hk : k = ip
      · rw [findKey, if_pos hk] at h
        obtain rfl := Option.some.inj h
        subst hk
        exact List.mem_cons_self _ _
      · rw [findKey, if_neg hk] at h
        exact List.mem_cons_of_mem _ (ih h)

theorem pruneOld_eq_self (c : Int) (l : List Int) (h : ∀ a ∈ l, c ≤ a) :
    pruneOld c l = l := by
  cases l with
  | nil => rfl
  | cons a t =>
      have ha : ¬ a < c := not_lt.2 (h a (List.mem_cons_self a t))
      simp [pruneOld, List.dropWhile_cons, ha]

theorem mem_pruneOld (c : Int) (l : List Int) (t : Int)
    (h : t ∈ pruneOld c l) : t ∈ l := by
  induction l with
  | nil => exact h
  | cons a rest ih =>
      by_cases ha : a < c
      · rw [show pruneOld c (a :: rest) = pruneOld c rest by
          simp [pruneOld, List.dropWhile_cons, ha]] at h
        exact List.mem_cons_of_mem _ (ih h)
      · rwa [show pruneOld c (a :: rest) = a :: rest by
          simp [pruneOld, List.dropWhile_cons, ha]] at h

theorem mem_pruneOld_ge (c : Int) (l : List Int) (hp : l.Pairwise (· ≤ ·)) :
    ∀ t ∈ pruneOld c l, c ≤ t := by
  induction l with
  | nil => intro t ht; simp [pruneOld] at ht
  | cons a rest ih =>
      rw [List.pairwise_cons] at hp
      intro t ht
      by_cases ha : a < c
      · rw [show pruneOld c (a :: rest) = pruneOld c rest by
          simp [pruneOld, List.dropWhile_cons, ha]] at ht
        exact ih hp.2 t ht
      · rw [show pruneOld c (a :: rest) = a :: rest by
          simp [pruneOld, List.dropWhile_cons, ha]] at ht
        rcases List.mem_cons.1 ht with rfl | hmem
        · exact not_lt.1 ha
        · exact le_trans (not_lt.1 ha) (hp.1 t hmem)

/-! ## Characterization of a single admission check and of request runs -/

theorem check_rate_limit_eq (cfg : Config) (now : Int) (s : RateState) (ip : String) :
    check_rate_limit cfg now s ip =
      (if cfg.ddosThreshold ≤ minuteCnt (lookupLog s ip) now then
         (⟨false, (lookupLog s ip).length + 1, "DDoS detected"⟩,
          ⟨setKey s.ipRequests ip (lookupLog s ip ++ [now]),
           setKey s.blockedIps ip (now + cfg.blockDurationMinutes * 60)⟩)
       else if cfg.requestsPerHour < (lookupLog s ip).length + 1 then
         (⟨false, (lookupLog s ip).length + 1, "Rate limit exceeded"⟩,
          ⟨setKey s.ipRequests ip (lookupLog s ip ++ [now]), s.blockedIps⟩)
       else
         (⟨true, (lookupLog s ip).length + 1, "OK"⟩,
          ⟨setKey s.ipRequests ip (lookupLog s ip ++ [now]), s.blockedIps⟩)) := by
  unfold check_rate_limit minuteCnt
  simp

theorem check_appends (cfg : Config) (now : Int) (s : RateState) (ip : String) :
    lookupLog (check_rate_limit cfg now s ip).2 ip = lookupLog s ip ++ [now] := by
  rw [check_rate_limit_eq]
  split_ifs <;> simp [lookupLog, findKey_setKey]

theorem cleanup_mkLogMap (ip : String) (pre : List Int) (bs : List (String × Int))
    (t : Int) (hwin : ∀ a ∈ pre, t - a ≤ 3600) :
    cleanup_old_data t ⟨mkLogMap ip pre, bs⟩ =
      ⟨mkLogMap ip pre, bs.filter (fun p => !(decide (p.2 < t)))⟩ := by
  unfold cleanup_old_data mkLogMap
  by_cases hp : pre.isEmpty
  · simp [hp]
  · have hpr : pruneOld (t - 3600) pre = pre := by
      apply pruneOld_eq_self
      intro a ha
      have := hwin a ha
      omega
    simp [hp, hpr]

theorem lookupLog_mkLogMap (ip : String) (pre : List Int) (bs : List (String × Int)) :
    lookupLog ⟨mkLogMap ip pre, bs⟩ ip = pre := by
  unfold lookupLog mkLogMap
  by_cases hp : pre.isEmpty
  · obtain rfl := List.isEmpty_iff.1 hp
    simp [findKey]
  · simp [hp, findKey]

theorem setKey_mkLogMap (ip : String) (pre l : List Int) (h : l.isEmpty = false) :
    setKey (mkLogMap ip pre) ip l = mkLogMap ip l := by
  unfold mkLogMap setKey
  by_cases hp : pre.isEmpty
  · simp [hp, h]
  · simp [hp, h, setKey]

theorem step_run (cfg : Config) (ip : String) (pre : List Int)
    (bs : List (String × Int)) (t : Int) (hwin : ∀ a ∈ pre, t - a ≤ 3600) :
    ∃ bs',
      step cfg ip ⟨mkLogMap ip pre, bs⟩ t =
        ((if cfg.ddosThreshold ≤ minuteCnt pre t then
            ⟨false, pre.length + 1, "DDoS detected"⟩
          else if cfg.requestsPerHour < pre.length + 1 then
            ⟨false, pre.length + 1, "Rate limit exceeded"⟩
          else ⟨true, pre.length + 1, "OK"⟩ : RLResult),
         ⟨mkLogMap ip (pre ++ [t]), bs'⟩) := by
  have hne : (pre ++ [t]).isEmpty = false := by simp
  unfold step
  rw [cleanup_mkLogMap ip pre bs t hwin, check_rate_limit_eq,
    lookupLog_mkLogMap]
  by_cases hd : cfg.ddosThreshold ≤ minuteCnt pre t
  · exact ⟨setKey (bs.filter (fun p => !(decide (p.2 < t)))) ip
      (t + cfg.blockDurationMinutes * 60),
      by simp [hd, setKey_mkLogMap ip pre _ hne]⟩
  · by_cases hh : cfg.requestsPerHour < pre.length + 1
    · exact ⟨bs.filter (fun p => !(decide (p.2 < t))),
        by simp [hd, hh, setKey_mkLogMap ip pre _ hne]⟩
    · exact ⟨bs.filter (fun p => !(decide (p.2 < t))),
        by simp [hd, hh, setKey_mkLogMap ip pre _ hne]⟩

theorem runReqs_noDdos (cfg : Config) (ip : String) :
    ∀ (rest pre : List Int) (bs : List (String × Int)),
      (∀ a ∈ pre ++ rest, ∀ b ∈ rest, b - a ≤ 3600) →
      noDdosRunB cfg pre rest = true →
      runReqs cfg ip ⟨mkLogMap ip pre, bs⟩ rest =
        (List.range rest.length).map
          (fun k => rlExpected cfg.requestsPerHour (pre.length + k + 1)) := by
  intro rest
  induction rest with
  | nil => intro pre bs _ _; rfl
  | cons t rest ih =>
      intro pre bs hwin hdd
      rw [noDdosRunB, Bool.and_eq_true, decide_eq_true_eq] at hdd
      obtain ⟨hmt, hdd2⟩ := hdd
      have hwt : ∀ a ∈ pre, t - a ≤ 3600 := fun a ha =>
        hwin a (List.mem_append_left _ ha) t (List.mem_cons_self _ _)
      obtain ⟨bs', hstep⟩ := step_run cfg ip pre bs t hwt
      have hwin2 : ∀ a ∈ (pre ++ [t]) ++ rest, ∀ b ∈ rest, b - a ≤ 3600 := by
        intro a ha b hb
        refine hwin a ?_ b (List.mem_cons_of_mem _ hb)
        rw [List.append_assoc] at ha
        simpa using ha
      have htail := ih (pre ++ [t]) bs' hwin2 hdd2
      rw [runReqs, hstep]
      simp only [if_neg (not_le.2 hmt)]
      rw [htail, List.length_cons, List.range_succ_eq_map, List.map_cons,
        List.map_map, List.cons.injEq]
      refine ⟨by simp [rlExpected], ?_⟩
      apply List.map_congr_left
      intro k _
      simp only [Function.comp_apply, List.length_append, List.length_cons,
        List.length_nil]
      congr 1
      omega

theorem runReqs_over (cfg : Config) (ip : String) :
    ∀ (rest pre : List Int) (bs : List (String × Int)),
      (∀ a ∈ pre ++ rest, ∀ b ∈ rest, b - a ≤ 3600) →
      cfg.requestsPerHour ≤ pre.length →
      (runReqs cfg ip ⟨mkLogMap ip pre, bs⟩ rest).map RLResult.allowed =
          List.replicate rest.length false ∧
      (runReqs cfg ip ⟨mkLogMap ip pre, bs⟩ rest).map RLResult.requestCount =
          (List.range rest.length).map (fun k => pre.length + k + 1) := by
  intro rest
  induction rest with
  | nil => intro pre bs _ _; exact ⟨rfl, rfl⟩
  | cons t rest ih =>
      intro pre bs hwin hlen
      have hwt : ∀ a ∈ pre, t - a ≤ 3600 := fun a ha =>
        hwin a (List.mem_append_left _ ha) t (List.mem_cons_self _ _)
      obtain ⟨bs', hstep⟩ := step_run cfg ip pre bs t hwt
      have hwin2 : ∀ a ∈ (pre ++ [t]) ++ rest, ∀ b ∈ rest, b - a ≤ 3600 := by
        intro a ha b hb
        refine hwin a ?_ b (List.mem_cons_of_mem _ hb)
        rw [List.append_assoc] at ha
        simpa using ha
      have hlen2 : cfg.requestsPerHour ≤ (pre ++ [t]).length := by
        simp
        omega
      obtain ⟨ha, hc⟩ := ih (pre ++ [t]) bs' hwin2 hlen2
      rw [runReqs, hstep]
      have hover : cfg.requestsPerHour < pre.length + 1 := by omega
      constructor
      · rw [List.map_cons, ha]
        have : ((if cfg.ddosThreshold ≤ minuteCnt pre t then
            ⟨false, pre.length + 1, "DDoS detected"⟩
          else if cfg.requestsPerHour < pre.length + 1 then
            ⟨false, pre.length + 1, "Rate limit exceeded"⟩
          else ⟨true, pre.length + 1, "OK"⟩ : RLResult)).allowed = false := by
          by_cases h1 : cfg.ddosThreshold ≤ minuteCnt pre t
          · rw [if_pos h1]
          · rw [if_neg h1, if_pos hover]
        rw [this]
        simp [List.replicate_succ]
      · rw [List.map_cons, hc]
        have : ((if cfg.ddosThreshold ≤ minuteCnt pre t then
            ⟨false, pre.length + 1, "DDoS detected"⟩
          else if cfg.requestsPerHour < pre.length + 1 then
            ⟨false, pre.length + 1, "Rate limit exceeded"⟩
          else ⟨true, pre.length + 1, "OK"⟩ : RLResult)).requestCount
            = pre.length + 1 := by
          split_ifs <;> rfl
        rw [this, List.length_cons, List.range_succ_eq_map, List.map_cons,
          List.map_map, List.cons.injEq]
        refine ⟨by omega, ?_⟩
        apply List.map_congr_left
        intro k _
        simp only [Function.comp_apply, List.length_append, List.length_cons,
          List.length_nil]
        congr 1
        omega

theorem findKey_of_mem_nodup {β : Type} (m : List (String × β)) (ip : String) (v : β)
    (hnd : (m.map Prod.fst).Nodup) (h : (ip, v) ∈ m) : findKey m ip = some v := by
  induction m with
  | nil => simp at h
  | cons q rest ih =>
      obtain ⟨k, w⟩ := q
      rw [List.map_cons, List.nodup_cons] at hnd
      rcases List.mem_cons.1 h with heq | hmem
      · obtain ⟨rfl, rfl⟩ := Prod.mk.injEq .. ▸ heq
        simp [findKey]
      · by_cases hk : k = ip
        · subst hk
          exact absurd (List.mem_map.2 ⟨(k, v), hmem, rfl⟩) hnd.1
        · rw [findKey, if_neg hk]
          exact ih hnd.2 hmem

theorem findKey_cleanup (now : Int) (s : RateState) (ip : String) (l : List Int)
    (hnd : (s.ipRequests.map Prod.fst).Nodup)
    (h : findKey (cleanup_old_data now s).ipRequests ip = some l) :
    ∃ v, findKey s.ipRequests ip = some v ∧ l = pruneOld (now - 3600) v := by
  have hmem := mem_of_findKey _ _ _ h
  unfold cleanup_old_data at hmem
  obtain ⟨hmm, _⟩ := List.mem_filter.1 hmem
  obtain ⟨p, hp, heq⟩ := List.mem_map.1 hmm
  have hfst : p.1 = ip := congrArg Prod.fst heq
  have hsnd : pruneOld (now - 3600) p.2 = l := congrArg Prod.snd heq
  refine ⟨p.2, ?_, hsnd.symm⟩
  rw [← hfst]
  exact findKey_of_mem_nodup _ _ _ hnd (by rw [show (p.1, p.2) = p from rfl]; exact hp)

theorem lookupLog_cleanup_sub (now : Int) (s : RateState) (ip : String)
    (hnd : (s.ipRequests.map Prod.fst).Nodup) :
    ∀ t ∈ lookupLog (cleanup_old_data now s) ip, t ∈ lookupLog s ip := by
  intro t ht
  unfold lookupLog at ht ⊢
  cases hfk : findKey (cleanup_old_data now s).ipRequests ip with
  | none => rw [hfk] at ht; simp at ht
  | some l =>
      rw [hfk] at ht
      obtain ⟨v, hv, hlv⟩ := findKey_cleanup now s ip l hnd hfk
      rw [hv]
      exact mem_pruneOld _ _ _ (hlv ▸ ht)

/-! ## Claim theorems -/

/-- C1: every non-blocked request first appends its timestamp to the client's
log and, when the DDoS check does not fire, is denied with RATE_LIMITED
exactly when the resulting count of entries in the trailing hour
(`[now - 3600, now]`, the window the sweep maintains) strictly exceeds
`requestsPerHour`; starting from no prior history, a sequence of requests
inside one rolling hour yields `rlExpected`: requests `1 .. requestsPerHour`
admitted, request `requestsPerHour + 1` the first denial, with reason
"Rate limit exceeded". -/
theorem c1_hourly_limit_first_denial (cfg : Config) (ip : String) (ts : List Int)
    (s : RateState) (now : Int)
    (hwin : ∀ a ∈ ts, ∀ b ∈ ts, b - a ≤ 3600)
    (hdd : noDdosRunB cfg [] ts = true)
    (hour : ∀ t ∈ lookupLog s ip, now - 3600 ≤ t ∧ t ≤ now)
    (hmin : minuteCnt (lookupLog s ip) now < cfg.ddosThreshold) :
    runReqs cfg ip ⟨[], []⟩ ts =
      (List.range ts.length).map (fun k => rlExpected cfg.requestsPerHour (k + 1)) ∧
    lookupLog (check_rate_limit cfg now s ip).2 ip = lookupLog s ip ++ [now] ∧
    ((check_rate_limit cfg now s ip).1.allowed = false ↔
      cfg.requestsPerHour <
        ((lookupLog s ip ++ [now]).filter
          (fun t => decide (now - 3600 ≤ t) && decide (t ≤ now))).length) ∧
    ((check_rate_limit cfg now s ip).1.allowed = false →
      (check_rate_limit cfg now s ip).1.reason = "Rate limit exceeded") := by
  have hfall : ((lookupLog s ip ++ [now]).filter
      (fun t => decide (now - 3600 ≤ t) && decide (t ≤ now)))
        = lookupLog s ip ++ [now] := by
    apply List.filter_eq_self.2
    intro a hamem
    rcases List.mem_append.1 hamem with h | h
    · obtain ⟨h1, h2⟩ := hour a h
      simp [h1, h2]
    · simp only [List.mem_singleton] at h
      subst h
      simp
  refine ⟨?_, check_appends cfg now s ip, ?_, ?_⟩
  · have hrun := runReqs_noDdos cfg ip ts [] [] (by simpa using hwin) hdd
    simpa [mkLogMap] using hrun
  · rw [hfall, check_rate_limit_eq, if_neg (not_le.2 hmin)]
    by_cases hh : cfg.requestsPerHour < (lookupLog s ip).length + 1
    · simp [hh]
    · simp [hh]
  · rw [check_rate_limit_eq, if_neg (not_le.2 hmin)]
    by_cases hh : cfg.requestsPerHour < (lookupLog s ip).length + 1
    · intro _
      simp [hh]
    · intro hcontra
      simp [hh] at hcontra

/-- C1 witness: limit 2, three requests inside one hour from a fresh client,
one old in-window entry for the single-step facts. -/
theorem c1_hourly_limit_first_denial_wit :
    ((∀ a ∈ [(0 : Int), 1, 2], ∀ b ∈ [(0 : Int), 1, 2], b - a ≤ 3600) ∧
      noDdosRunB ⟨"http://backend", 2, 100, 60⟩ [] [0, 1, 2] = true ∧
      (∀ t ∈ lookupLog ⟨[("a", [-10])], []⟩ "a", (0 : Int) - 3600 ≤ t ∧ t ≤ 0) ∧
      minuteCnt (lookupLog ⟨[("a", [-10])], []⟩ "a") 0 < 100) ∧
    runReqs ⟨"http://backend", 2, 100, 60⟩ "a" ⟨[], []⟩ [0, 1, 2] =
      (List.range 3).map (fun k => rlExpected 2 (k + 1)) ∧
    lookupLog (check_rate_limit ⟨"http://backend", 2, 100, 60⟩ 0
        ⟨[("a", [-10])], []⟩ "a").2 "a" =
      lookupLog ⟨[("a", [-10])], []⟩ "a" ++ [0] ∧
    ((check_rate_limit ⟨"http://backend", 2, 100, 60⟩ 0
        ⟨[("a", [-10])], []⟩ "a").1.allowed = false ↔
      2 < ((lookupLog ⟨[("a", [-10])], []⟩ "a" ++ [0]).filter
        (fun t => decide ((0 : Int) - 3600 ≤ t) && decide (t ≤ 0))).length) := by
  have h := c1_hourly_limit_first_denial ⟨"http://backend", 2, 100, 60⟩ "a"
    [0, 1, 2] ⟨[("a", [-10])], []⟩ 0 (by decide) (by decide) (by decide) (by decide)
  exact ⟨⟨by decide, by decide, by decide, by decide⟩, h.1, h.2.1, h.2.2.1⟩

/-- C2: when the count of recorded timestamps strictly newer than `now - 60`
(the just-appended one included) reaches `ddosThreshold`, `check_rate_limit`
denies with reason "DDoS detected" and creates or overwrites the client's
block entry with expiry `now + blockDurationMinutes * 60`; at the handler
level the request is answered 429 with outcome DDOS_BLOCKED — the DDoS
branch is evaluated before the hourly branch, so a firing DDoS check yields
DDOS_BLOCKED regardless of the hourly count. -/
theorem c2_ddos_precedence (cfg : Config)
    (backend : OutboundRequest → Except ForwardError BackendResponse)
    (now : Int) (s : RateState) (req : HttpRequest) (ip : String)
    (hmin : cfg.ddosThreshold ≤ minuteCnt (lookupLog s ip) now)
    (hminc : cfg.ddosThreshold ≤ minuteCnt (lookupLog (cleanup_old_data now s) ip) now)
    (hnb : is_ip_blocked (cleanup_old_data now s) ip now = false) :
    (check_rate_limit cfg now s ip).1.allowed = false ∧
    (check_rate_limit cfg now s ip).1.reason = "DDoS detected" ∧
    findKey (check_rate_limit cfg now s ip).2.blockedIps ip =
      some (now + cfg.blockDurationMinutes * 60) ∧
    (proxy_request cfg backend now s req ip).1 = .ddosResp cfg.blockDurationMinutes ∧
    (proxy_request cfg backend now s req ip).1.statusCode = 429 ∧
    (proxy_request cfg backend now s req ip).1.outcome = "DDOS_BLOCKED" := by
  have h1 := check_rate_limit_eq cfg now s ip
  rw [if_pos hmin] at h1
  have h2 := check_rate_limit_eq cfg now (cleanup_old_data now s) ip
  rw [if_pos hminc] at h2
  have hdd : strContains "DDoS" "DDoS detected" = true := by decide
  have hres : (proxy_request cfg backend now s req ip).1 =
      .ddosResp cfg.blockDurationMinutes := by
    unfold proxy_request
    simp [hnb, h2, hdd]
  refine ⟨by rw [h1], by rw [h1], ?_, hres, by rw [hres]; rfl, by rw [hres]; rfl⟩
  rw [h1]
  exact findKey_setKey _ _ _

/-- C2 witness: threshold 1, fresh client, the first request fires the DDoS
check and installs a block until `0 + 60 * 60`. -/
theorem c2_ddos_precedence_wit :
    ((1 ≤ minuteCnt (lookupLog ⟨[], []⟩ "a") 0) ∧
      (1 ≤ minuteCnt (lookupLog (cleanup_old_data 0 ⟨[], []⟩) "a") 0) ∧
      is_ip_blocked (cleanup_old_data 0 ⟨[], []⟩) "a" 0 = false) ∧
    (check_rate_limit ⟨"http://backend", 60, 1, 60⟩ 0 ⟨[], []⟩ "a").1.allowed = false ∧
    (check_rate_limit ⟨"http://backend", 60, 1, 60⟩ 0 ⟨[], []⟩ "a").1.reason =
      "DDoS detected" ∧
    findKey (check_rate_limit ⟨"http://backend", 60, 1, 60⟩ 0
        ⟨[], []⟩ "a").2.blockedIps "a" = some ((0 : Int) + 60 * 60) ∧
    (proxy_request ⟨"http://backend", 60, 1, 60⟩ (fun _ => .error .timeoutErr) 0
        ⟨[], []⟩ ⟨.GET, "p", [], [], [], false, false, none, [], []⟩ "a").1 =
      .ddosResp 60 ∧
    (proxy_request ⟨"http://backend", 60, 1, 60⟩ (fun _ => .error .timeoutErr) 0
        ⟨[], []⟩ ⟨.GET, "p", [], [], [], false, false, none, [], []⟩ "a").1.outcome =
      "DDOS_BLOCKED" := by
  have h := c2_ddos_precedence ⟨"http://backend", 60, 1, 60⟩
    (fun _ => .error .timeoutErr) 0 ⟨[], []⟩
    ⟨.GET, "p", [], [], [], false, false, none, [], []⟩ "a"
    (by decide) (by decide) (by decide)
  exact ⟨⟨by decide, by decide, by decide⟩, h.1, h.2.1, h.2.2.1, h.2.2.2.1, h.2.2.2.2.2⟩

/-- C10: `check_rate_limit` appends the current timestamp before any
threshold is evaluated — the client's stored log after any invocation is the
old log with `now` appended, in every branch including both denials — so a
client holding at least `requestsPerHour` recorded entries that keeps
retrying inside the rolling hour is denied on every retry while its recorded
count keeps growing past the limit. -/
theorem c10_denied_requests_still_count (cfg : Config) (now : Int) (s : RateState)
    (ip : String) (l rs : List Int)
    (hlen : cfg.requestsPerHour ≤ l.length)
    (hwin : ∀ a ∈ l ++ rs, ∀ b ∈ rs, b - a ≤ 3600) :
    lookupLog (check_rate_limit cfg now s ip).2 ip = lookupLog s ip ++ [now] ∧
    (runReqs cfg ip ⟨mkLogMap ip l, []⟩ rs).map RLResult.allowed =
        List.replicate rs.length false ∧
    (runReqs cfg ip ⟨mkLogMap ip l, []⟩ rs).map RLResult.requestCount =
        (List.range rs.length).map (fun k => l.length + k + 1) := by
  obtain ⟨h1, h2⟩ := runReqs_over cfg ip rs l [] hwin hlen
  exact ⟨check_appends cfg now s ip, h1, h2⟩

/-- C10 witness: limit 2 already reached by two entries; two fast retries are
both denied while the recorded count grows 3, 4. -/
theorem c10_denied_requests_still_count_wit :
    ((2 ≤ ([(0 : Int), 0] : List Int).length) ∧
      (∀ a ∈ [(0 : Int), 0] ++ [1, 2], ∀ b ∈ [(1 : Int), 2], b - a ≤ 3600)) ∧
    lookupLog (check_rate_limit ⟨"http://backend", 2, 100, 60⟩ 5
        ⟨[("a", [0, 0])], []⟩ "a").2 "a" =
      lookupLog ⟨[("a", [0, 0])], []⟩ "a" ++ [5] ∧
    (runReqs ⟨"http://backend", 2, 100, 60⟩ "a" ⟨mkLogMap "a" [0, 0], []⟩
        [1, 2]).map RLResult.allowed = List.replicate 2 false ∧
    (runReqs ⟨"http://backend", 2, 100, 60⟩ "a" ⟨mkLogMap "a" [0, 0], []⟩
        [1, 2]).map RLResult.requestCount =
      (List.range 2).map (fun k => 2 + k + 1) := by
  have h := c10_denied_requests_still_count ⟨"http://backend", 2, 100, 60⟩ 5
    ⟨[("a", [0, 0])], []⟩ "a" [0, 0] [1, 2] (by decide) (by decide)
  exact ⟨⟨by decide, by decide⟩, h.1, h.2.1, h.2.2⟩

/-- C3: a request arriving while the client holds a block entry with
`now < expiry` is answered 429 with outcome BLOCKED, carrying the remaining
minutes `(expiry - now) / 60` and the unblock time; the handler state is
just the swept state — no timestamp is appended to the client's log (every
surviving entry was already recorded) and the block's expiry is untouched;
and `is_ip_blocked` holds exactly when a block entry with `now < expiry`
exists. -/
theorem c3_blocked_request_frame (cfg : Config)
    (backend : OutboundRequest → Except ForwardError BackendResponse)
    (now : Int) (s : RateState) (req : HttpRequest) (ip : String) (expiry : Int)
    (hnd : (s.ipRequests.map Prod.fst).Nodup)
    (hb : findKey (cleanup_old_data now s).blockedIps ip = some expiry)
    (hexp : now < expiry) :
    (proxy_request cfg backend now s req ip).1 =
      .blockedResp ((expiry - now) / 60) expiry ∧
    (proxy_request cfg backend now s req ip).1.statusCode = 429 ∧
    (proxy_request cfg backend now s req ip).1.outcome = "BLOCKED" ∧
    (proxy_request cfg backend now s req ip).2 = cleanup_old_data now s ∧
    findKey (proxy_request cfg backend now s req ip).2.blockedIps ip = some expiry ∧
    (∀ t ∈ lookupLog (proxy_request cfg backend now s req ip).2 ip,
        t ∈ lookupLog s ip) ∧
    (is_ip_blocked s ip now = true ↔
        ∃ e, findKey s.blockedIps ip = some e ∧ now < e) := by
  have hblk : is_ip_blocked (cleanup_old_data now s) ip now = true := by
    unfold is_ip_blocked
    rw [hb]
    exact decide_eq_true hexp
  have hres : proxy_request cfg backend now s req ip =
      (.blockedResp ((expiry - now) / 60) expiry, cleanup_old_data now s) := by
    unfold proxy_request
    simp [hblk, hb]
  refine ⟨by rw [hres], by rw [hres]; rfl, by rw [hres]; rfl, by rw [hres], ?_, ?_, ?_⟩
  · rw [hres]
    exact hb
  · rw [hres]
    exact lookupLog_cleanup_sub now s ip hnd
  · unfold is_ip_blocked
    cases hfk : findKey s.blockedIps ip with
    | none => simp
    | some e => simp

/-- C3 witness: a client blocked until 100, observed at time 10: 90 seconds,
so 1 minute, remain; the stored state is exactly the swept state. -/
theorem c3_blocked_request_frame_wit :
    (([("a", [(5 : Int)])].map Prod.fst).Nodup ∧
      findKey (cleanup_old_data 10 ⟨[("a", [5])], [("a", 100)]⟩).blockedIps "a" =
        some 100 ∧
      (10 : Int) < 100) ∧
    (proxy_request ⟨"http://backend", 2, 100, 60⟩ (fun _ => .error .timeoutErr) 10
        ⟨[("a", [5])], [("a", 100)]⟩
        ⟨.GET, "p", [], [], [], false, false, none, [], []⟩ "a").1 =
      .blockedResp 1 100 ∧
    (proxy_request ⟨"http://backend", 2, 100, 60⟩ (fun _ => .error .timeoutErr) 10
        ⟨[("a", [5])], [("a", 100)]⟩
        ⟨.GET, "p", [], [], [], false, false, none, [], []⟩ "a").1.statusCode = 429 ∧
    (proxy_request ⟨"http://backend", 2, 100, 60⟩ (fun _ => .error .timeoutErr) 10
        ⟨[("a", [5])], [("a", 100)]⟩
        ⟨.GET, "p", [], [], [], false, false, none, [], []⟩ "a").2 =
      cleanup_old_data 10 ⟨[("a", [5])], [("a", 100)]⟩ ∧
    findKey (proxy_request ⟨"http://backend", 2, 100, 60⟩ (fun _ => .error .timeoutErr)
        10 ⟨[("a", [5])], [("a", 100)]⟩
        ⟨.GET, "p", [], [], [], false, false, none, [], []⟩ "a").2.blockedIps "a" =
      some 100 := by
  have h := c3_blocked_request_frame ⟨"http://backend", 2, 100, 60⟩
    (fun _ => .error .timeoutErr) 10 ⟨[("a", [5])], [("a", 100)]⟩
    ⟨.GET, "p", [], [], [], false, false, none, [], []⟩ "a" 100
    (by decide) (by decide) (by decide)
  exact ⟨⟨by decide, by decide, by decide⟩, h.1, h.2.1, h.2.2.2.1, h.2.2.2.2.1⟩

/-- C4 counterexample: the sweep keeps a log entry whose timestamp equals
`now - 3600` (the code prunes with strict `<`) and keeps a block entry whose
expiry equals `now` (the code deletes with strict `<`), so entries with
timestamp `≤ now - 3600` and blocks with expiry `≤ now` are not all
removed. -/
theorem c4_sweep_boundary_cex :
    ((0 : Int) ≤ 3600 - 3600 ∧
      findKey (cleanup_old_data 3600
        ⟨[("a", [0])], [("b", 3600)]⟩).ipRequests "a" = some [0]) ∧
    ((3600 : Int) ≤ 3600 ∧
      findKey (cleanup_old_data 3600
        ⟨[("a", [0])], [("b", 3600)]⟩).blockedIps "b" = some 3600) := by
  decide

/-- C4 amended: after a sweep at `now`, on states whose logs are in
nondecreasing order (the maintained insertion invariant), every surviving
log is nonempty — a client whose log became empty has no log at all — and
holds only entries with timestamp strictly newer than `now - 3600`
boundary included (`now - 3600 ≤ t`, i.e. every entry with
`t < now - 3600` is removed), and every surviving block entry has
`now ≤ expiry`, i.e. every block with `expiry < now` is removed. -/
theorem c4_sweep_amended (now : Int) (s : RateState) (ip1 ip2 : String)
    (l : List Int) (e : Int)
    (hsorted : ∀ p ∈ s.ipRequests, p.2.Pairwise (fun a b => a ≤ b))
    (hl : findKey (cleanup_old_data now s).ipRequests ip1 = some l)
    (he : findKey (cleanup_old_data now s).blockedIps ip2 = some e) :
    l ≠ [] ∧ now ≤ e ∧ ∀ t ∈ l, now - 3600 ≤ t := by
  have hmem := mem_of_findKey _ _ _ hl
  unfold cleanup_old_data at hmem
  obtain ⟨hmm, hfl⟩ := List.mem_filter.1 hmem
  obtain ⟨p, hp, heq⟩ := List.mem_map.1 hmm
  have hsnd : pruneOld (now - 3600) p.2 = l := congrArg Prod.snd heq
  have hemem := mem_of_findKey _ _ _ he
  unfold cleanup_old_data at hemem
  obtain ⟨_, hfe⟩ := List.mem_filter.1 hemem
  refine ⟨?_, ?_, ?_⟩
  · intro hnil
    rw [hnil] at hfl
    simp at hfl
  · simp only [Bool.not_eq_true', decide_eq_false_iff_not, not_lt] at hfe
    exact hfe
  · intro t ht
    rw [← hsnd] at ht
    exact mem_pruneOld_ge _ _ (hsorted p hp) t ht

/-- C4 amended witness: sorted state with an in-window log and a live block
surviving the sweep. -/
theorem c4_sweep_amended_wit :
    ((∀ p ∈ ([("a", [1, 2])] : List (String × List Int)),
        p.2.Pairwise (fun a b => a ≤ b)) ∧
      findKey (cleanup_old_data 10 ⟨[("a", [1, 2])], [("b", 50)]⟩).ipRequests "a" =
        some [1, 2] ∧
      findKey (cleanup_old_data 10 ⟨[("a", [1, 2])], [("b", 50)]⟩).blockedIps "b" =
        some 50) ∧
    ([(1 : Int), 2] ≠ [] ∧ (10 : Int) ≤ 50) := by
  have h := c4_sweep_amended 10 ⟨[("a", [1, 2])], [("b", 50)]⟩ "a" "b" [1, 2] 50
    (by decide) (by decide) (by decide)
  exact ⟨⟨by decide, by decide, by decide⟩, h.1, h.2.1⟩

/-- C5: `/unblock/<ip>` leaves the client with no block entry, so
`is_ip_blocked` is false immediately afterwards at any instant; the response
reports success exactly when a block entry existed; the request logs are
untouched; and unblocking a non-blocked client leaves the whole state
unchanged. -/
theorem c5_manual_unblock (s : RateState) (ip : String) (now : Int) :
    findKey (unblock_ip s ip).2.blockedIps ip = none ∧
    is_ip_blocked (unblock_ip s ip).2 ip now = false ∧
    (unblock_ip s ip).1.success = (findKey s.blockedIps ip).isSome ∧
    (unblock_ip s ip).2.ipRequests = s.ipRequests ∧
    (findKey s.blockedIps ip = none → (unblock_ip s ip).2 = s) := by
  cases hfk : findKey s.blockedIps ip with
  | some e =>
      have hu : unblock_ip s ip =
          (⟨"IP " ++ ip ++ " has been unblocked", true⟩,
           ⟨s.ipRequests, delKey s.blockedIps ip⟩) := by
        unfold unblock_ip
        rw [hfk]
        rfl
      refine ⟨?_, ?_, by rw [hu]; rfl, by rw [hu], ?_⟩
      · rw [hu]
        exact findKey_delKey _ _
      · rw [hu]
        unfold is_ip_blocked
        rw [findKey_delKey]
      · intro hnone
        exact Option.noConfusion hnone
  | none =>
      have hu : unblock_ip s ip =
          (⟨"IP " ++ ip ++ " was not blocked", false⟩, s) := by
        unfold unblock_ip
        rw [hfk]
        rfl
      refine ⟨by rw [hu]; exact hfk, ?_, by rw [hu]; rfl, by rw [hu],
        fun _ => by rw [hu]⟩
      rw [hu]
      unfold is_ip_blocked
      rw [hfk]

/-- C5 witness: unblocking a blocked client clears the block and reports
success; unblocking an unknown client is a reported no-op. -/
theorem c5_manual_unblock_wit :
    (findKey (unblock_ip ⟨[], [("a", 5)]⟩ "a").2.blockedIps "a" = none ∧
      is_ip_blocked (unblock_ip ⟨[], [("a", 5)]⟩ "a").2 "a" 0 = false ∧
      (unblock_ip ⟨[], [("a", 5)]⟩ "a").1.success = true) ∧
    (findKey (⟨[], [("a", 5)]⟩ : RateState).blockedIps "b" = none ∧
      (unblock_ip ⟨[], [("a", 5)]⟩ "b").2 = ⟨[], [("a", 5)]⟩ ∧
      (unblock_ip ⟨[], [("a", 5)]⟩ "b").1.success = false) := by
  have h1 := c5_manual_unblock ⟨[], [("a", 5)]⟩ "a" 0
  have h2 := c5_manual_unblock ⟨[], [("a", 5)]⟩ "b" 0
  exact ⟨⟨h1.1, h1.2.1, by decide⟩, ⟨by decide, h2.2.2.2.2 (by decide), by decide⟩⟩

/-- C6: every backend failure of an admitted request is caught at the
handler boundary and mapped through `errorResponse` to exactly one error
reply — a timeout to outcome TIMEOUT with status 504, a connection failure
to CONNECTION_ERROR with 502, and any other failure to ERROR with 500
carrying the diagnostic; the admission decision itself is a total Lean
function, so it never throws. -/
theorem c6_backend_failure_mapping (cfg : Config)
    (backend : OutboundRequest → Except ForwardError BackendResponse)
    (now : Int) (s : RateState) (req : HttpRequest) (ip : String)
    (e : ForwardError) (msg : String)
    (hnb : is_ip_blocked (cleanup_old_data now s) ip now = false)
    (hal : (check_rate_limit cfg now (cleanup_old_data now s) ip).1.allowed = true)
    (hb : backend (buildOutbound cfg req) = .error e) :
    (proxy_request cfg backend now s req ip).1 = errorResponse e ∧
    (errorResponse .timeoutErr).statusCode = 504 ∧
    (errorResponse .timeoutErr).outcome = "TIMEOUT" ∧
    (errorResponse .connErr).statusCode = 502 ∧
    (errorResponse .connErr).outcome = "CONNECTION_ERROR" ∧
    (errorResponse (.otherErr msg)).statusCode = 500 ∧
    (errorResponse (.otherErr msg)).outcome = "ERROR" := by
  refine ⟨?_, rfl, rfl, rfl, rfl, rfl, rfl⟩
  unfold proxy_request
  cases e <;> simp [hnb, hal, hb, errorResponse]

/-- C6 witness: a fresh admitted request against a timing-out backend is
answered with the 504 TIMEOUT mapping. -/
theorem c6_backend_failure_mapping_wit :
    (is_ip_blocked (cleanup_old_data 0 ⟨[], []⟩) "a" 0 = false ∧
      (check_rate_limit ⟨"http://backend", 2, 100, 60⟩ 0
        (cleanup_old_data 0 ⟨[], []⟩) "a").1.allowed = true ∧
      ((fun _ => .error .timeoutErr :
          OutboundRequest → Except ForwardError BackendResponse)
        (buildOutbound ⟨"http://backend", 2, 100, 60⟩
          ⟨.GET, "p", [], [], [], false, false, none, [], []⟩) =
        .error .timeoutErr)) ∧
    (proxy_request ⟨"http://backend", 2, 100, 60⟩ (fun _ => .error .timeoutErr) 0
        ⟨[], []⟩ ⟨.GET, "p", [], [], [], false, false, none, [], []⟩ "a").1 =
      errorResponse .timeoutErr ∧
    (errorResponse .timeoutErr).statusCode = 504 ∧
    (errorResponse .connErr).statusCode = 502 ∧
    (errorResponse (.otherErr "boom")).statusCode = 500 := by
  have h := c6_backend_failure_mapping ⟨"http://backend", 2, 100, 60⟩
    (fun _ => .error .timeoutErr) 0 ⟨[], []⟩
    ⟨.GET, "p", [], [], [], false, false, none, [], []⟩ "a" .timeoutErr "boom"
    (by decide) (by decide) rfl
  exact ⟨⟨by decide, by decide, rfl⟩, h.1, h.2.1, h.2.2.2.1, h.2.2.2.2.2.1⟩

/-- C7 counterexample: a POST request that is neither multipart nor JSON and
carries the query parameter `a=1` is forwarded with an empty `params=`
argument — the inbound query parameters are not forwarded on the raw POST
branch, contradicting the claim that they are. -/
theorem c7_post_query_dropped_cex :
    (buildOutbound ⟨"http://backend", 60, 20, 60⟩
        ⟨.POST, "p", [("Host", "h")], [("a", "1")], [1, 2],
          false, false, none, [], []⟩).params = [] ∧
    (⟨.POST, "p", [("Host", "h")], [("a", "1")], [1, 2],
        false, false, none, [], []⟩ : HttpRequest).args = [("a", "1")] ∧
    (buildOutbound ⟨"http://backend", 60, 20, 60⟩
        ⟨.POST, "p", [("Host", "h")], [("a", "1")], [1, 2],
          false, false, none, [], []⟩).params ≠
      (⟨.POST, "p", [("Host", "h")], [("a", "1")], [1, 2],
        false, false, none, [], []⟩ : HttpRequest).args := by
  decide

/-- C7 amended: an admitted POST that is neither multipart nor JSON is
forwarded with the raw body bytes verbatim and the inbound headers minus
`Host` and `Content-Length`, but with no query parameters (the code passes
no `params=` on that branch); an admitted request of any method other than
GET and POST is forwarded with the raw body bytes verbatim, the inbound
query parameters, and the same filtered headers. -/
theorem c7_forwarding_amended (cfg : Config) (reqP reqO : HttpRequest)
    (hp : reqP.method = .POST) (hm : reqP.isMultipart = false)
    (hj : reqP.isJson = false)
    (hog : reqO.method ≠ .GET) (hop : reqO.method ≠ .POST) :
    (buildOutbound cfg reqP).data = some reqP.body ∧
    (buildOutbound cfg reqP).headers = filterReqHeaders reqP.headers ∧
    (buildOutbound cfg reqP).params = [] ∧
    (buildOutbound cfg reqO).data = some reqO.body ∧
    (buildOutbound cfg reqO).headers = filterReqHeaders reqO.headers ∧
    (buildOutbound cfg reqO).params = reqO.args := by
  have hP : buildOutbound cfg reqP =
      ⟨.POST, backendTarget cfg reqP.path, filterReqHeaders reqP.headers, [],
        some reqP.body, none, [], []⟩ := by
    unfold buildOutbound
    rw [hp]
    simp [hm, hj]
  have hO : buildOutbound cfg reqO =
      ⟨reqO.method, backendTarget cfg reqO.path, filterReqHeaders reqO.headers,
        reqO.args, some reqO.body, none, [], []⟩ := by
    unfold buildOutbound
    cases hmo : reqO.method
    · exact absurd hmo hog
    · exact absurd hmo hop
    · rfl
    · rfl
    · rfl
    · rfl
  exact ⟨by rw [hP], by rw [hP], by rw [hP], by rw [hO], by rw [hO], by rw [hO]⟩

/-- C7 amended witness: a raw POST with a query argument and a PUT with the
same shape, forwarded as the amended claim states. -/
theorem c7_forwarding_amended_wit :
    ((⟨.POST, "p", [("Host", "h"), ("X-Y", "z")], [("a", "1")], [1, 2],
        false, false, none, [], []⟩ : HttpRequest).method = .POST ∧
      (⟨.PUT, "q", [("Content-Length", "2")], [("b", "2")], [3],
        false, false, none, [], []⟩ : HttpRequest).method ≠ .GET) ∧
    (buildOutbound ⟨"http://backend", 60, 20, 60⟩
        ⟨.POST, "p", [("Host", "h"), ("X-Y", "z")], [("a", "1")], [1, 2],
          false, false, none, [], []⟩).data = some [1, 2] ∧
    (buildOutbound ⟨"http://backend", 60, 20, 60⟩
        ⟨.POST, "p", [("Host", "h"), ("X-Y", "z")], [("a", "1")], [1, 2],
          false, false, none, [], []⟩).headers = [("X-Y", "z")] ∧
    (buildOutbound ⟨"http://backend", 60, 20, 60⟩
        ⟨.POST, "p", [("Host", "h"), ("X-Y", "z")], [("a", "1")], [1, 2],
          false, false, none, [], []⟩).params = [] ∧
    (buildOutbound ⟨"http://backend", 60, 20, 60⟩
        ⟨.PUT, "q", [("Content-Length", "2")], [("b", "2")], [3],
          false, false, none, [], []⟩).data = some [3] ∧
    (buildOutbound ⟨"http://backend", 60, 20, 60⟩
        ⟨.PUT, "q", [("Content-Length", "2")], [("b", "2")], [3],
          false, false, none, [], []⟩).params = [("b", "2")] := by
  have h := c7_forwarding_amended ⟨"http://backend", 60, 20, 60⟩
    ⟨.POST, "p", [("Host", "h"), ("X-Y", "z")], [("a", "1")], [1, 2],
      false, false, none, [], []⟩
    ⟨.PUT, "q", [("Content-Length", "2")], [("b", "2")], [3],
      false, false, none, [], []⟩
    rfl rfl rfl (by decide) (by decide)
  refine ⟨⟨rfl, by decide⟩, h.1, ?_, h.2.2.1, h.2.2.2.1, h.2.2.2.2.2⟩
  rw [h.2.1]
  decide

/-- C8: when an admitted request's backend call succeeds, the client-facing
reply carries the backend's status code and body verbatim and its headers
are exactly the backend's headers with `Content-Encoding`,
`Content-Length`, `Transfer-Encoding` and `Connection` removed
case-insensitively — none of those four ever appears in the reply, and
every other backend header is kept. -/
theorem c8_success_relay (cfg : Config)
    (backend : OutboundRequest → Except ForwardError BackendResponse)
    (now : Int) (s : RateState) (req : HttpRequest) (ip : String)
    (r : BackendResponse)
    (hnb : is_ip_blocked (cleanup_old_data now s) ip now = false)
    (hal : (check_rate_limit cfg now (cleanup_old_data now s) ip).1.allowed = true)
    (hb : backend (buildOutbound cfg req) = .ok r) :
    (proxy_request cfg backend now s req ip).1 =
      .successResp r.statusCode (filterRespHeaders r.headers) r.content ∧
    (proxy_request cfg backend now s req ip).1.statusCode = r.statusCode ∧
    (∀ p ∈ filterRespHeaders r.headers,
        lowerStr p.1 ≠ "content-encoding" ∧ lowerStr p.1 ≠ "content-length" ∧
        lowerStr p.1 ≠ "transfer-encoding" ∧ lowerStr p.1 ≠ "connection") ∧
    (∀ p ∈ r.headers,
        lowerStr p.1 ≠ "content-encoding" → lowerStr p.1 ≠ "content-length" →
        lowerStr p.1 ≠ "transfer-encoding" → lowerStr p.1 ≠ "connection" →
        p ∈ filterRespHeaders r.headers) := by
  have hres : (proxy_request cfg backend now s req ip).1 =
      .successResp r.statusCode (filterRespHeaders r.headers) r.content := by
    unfold proxy_request
    simp [hnb, hal, hb]
  refine ⟨hres, by rw [hres]; rfl, ?_, ?_⟩
  · intro p hp
    obtain ⟨_, hcond⟩ := List.mem_filter.1 hp
    have hc := hcond
    simp at hc
    exact ⟨hc.1.1.1, hc.1.1.2, hc.1.2, hc.2⟩
  · intro p hp h1 h2 h3 h4
    refine List.mem_filter.2 ⟨hp, ?_⟩
    simp [h1, h2, h3, h4]

/-- C8 witness: a backend reply with a mixed-case `Content-Length` header is
relayed with status and body intact and that header removed while `X-A`
survives. -/
theorem c8_success_relay_wit :
    (is_ip_blocked (cleanup_old_data 0 ⟨[], []⟩) "a" 0 = false ∧
      (check_rate_limit ⟨"http://backend", 2, 100, 60⟩ 0
        (cleanup_old_data 0 ⟨[], []⟩) "a").1.allowed = true ∧
      ((fun _ => .ok ⟨200, [("Content-Length", "5"), ("X-A", "1")], [7, 8]⟩ :
          OutboundRequest → Except ForwardError BackendResponse)
        (buildOutbound ⟨"http://backend", 2, 100, 60⟩
          ⟨.GET, "p", [], [], [], false, false, none, [], []⟩) =
        .ok ⟨200, [("Content-Length", "5"), ("X-A", "1")], [7, 8]⟩)) ∧
    (proxy_request ⟨"http://backend", 2, 100, 60⟩
        (fun _ => .ok ⟨200, [("Content-Length", "5"), ("X-A", "1")], [7, 8]⟩) 0
        ⟨[], []⟩ ⟨.GET, "p", [], [], [], false, false, none, [], []⟩ "a").1 =
      .successResp 200
        (filterRespHeaders [("Content-Length", "5"), ("X-A", "1")]) [7, 8] ∧
    filterRespHeaders [("Content-Length", "5"), ("X-A", "1")] = [("X-A", "1")] ∧
    (proxy_request ⟨"http://backend", 2, 100, 60⟩
        (fun _ => .ok ⟨200, [("Content-Length", "5"), ("X-A", "1")], [7, 8]⟩) 0
        ⟨[], []⟩ ⟨.GET, "p", [], [], [], false, false, none, [], []⟩
        "a").1.statusCode = 200 := by
  have h := c8_success_relay ⟨"http://backend", 2, 100, 60⟩
    (fun _ => .ok ⟨200, [("Content-Length", "5"), ("X-A", "1")], [7, 8]⟩) 0
    ⟨[], []⟩ ⟨.GET, "p", [], [], [], false, false, none, [], []⟩ "a"
    ⟨200, [("Content-Length", "5"), ("X-A", "1")], [7, 8]⟩
    (by decide) (by decide) rfl
  exact ⟨⟨by decide, by decide, rfl⟩, h.1, by decide, h.2.1⟩

end RateLimiter
